import Mathlib

/-!
Shallow embedding of the DeFi_RiskAndOpt_Platform repository
(src/app.py and src/polymarket_scraper.py).

Conventions of the embedding:
* A raw event record is modelled by `RawEvent`; its single `wallet` field
  stands for the Python dict entry `stakeholder` (split events) or
  `redeemer` (redemption events).  `wallet = none` models a dict in which
  the key is absent; `wallet = some w` models a present key with string
  value `w` (`w = ""` models an empty string, which is falsy in Python).
* Python `set`s of wallet strings become `Finset String`.
* Python floats produced by the two ratio fields are modelled exactly as
  rationals (`ℚ`): the divisions in the source are exact decimal ratios,
  and the claims are about their exact values and bounds.
* Timestamps are seconds since the epoch, modelled as `Nat`.
-/

namespace DeFiSpec

/-- A raw event as loaded from JSON.  `wallet` is the `stakeholder` field
for split events and the `redeemer` field for redemption events; `none`
means the key is absent from the dict. -/
structure RawEvent where
  wallet : Option String
deriving DecidableEq, Repr

/-- The cumulative cohort state maintained by `load_monthly_data`
(src/app.py lines 31-33): `all_splitters_seen`, `all_redeemers_seen`,
`all_users_seen`. -/
structure CohortState where
  all_splitters_seen : Finset String
  all_redeemers_seen : Finset String
  all_users_seen : Finset String
deriving DecidableEq

/-- The empty cohort state the fold starts from (sets initialised empty
before the first month is processed). -/
def emptyCohort : CohortState := ⟨∅, ∅, ∅⟩

/-- The per-month metrics dict appended by `load_monthly_data`
(src/app.py lines 68-89). -/
structure MonthlyMetrics where
  month : String
  unique_splitters : Nat
  unique_redeemers : Nat
  monthly_active_users : Nat
  split_and_redeemed : Nat
  only_split : Nat
  only_redeemed : Nat
  total_splits : Nat
  total_redemptions : Nat
  redeemer_splitter_ratio : ℚ
  new_users : Nat
  new_splitters : Nat
  new_redeemers : Nat
  returning_users : Nat
  retention_rate : ℚ
  cumulative_users : Nat
  cumulative_splitters : Nat
  cumulative_redeemers : Nat
deriving DecidableEq, Repr

instance : Inhabited MonthlyMetrics :=
  ⟨⟨"", 0, 0, 0, 0, 0, 0, 0, 0, 0, 0, 0, 0, 0, 0, 0, 0, 0⟩⟩

/-- Python's `str.lower()` on wallet strings, modelled as per-character
ASCII lowercasing (wallet addresses are ASCII hex strings). -/
def pyLower (s : String) : String := ⟨s.data.map Char.toLower⟩

/-- The wallet set built by `load_monthly_data` (src/app.py lines 48-49):
`set(s['stakeholder'].lower() for s in splits if 'stakeholder' in s)`.
Only key *presence* is tested, so an empty-string wallet is kept. -/
def appWalletSet (events : List RawEvent) : Finset String :=
  ((events.filterMap (·.wallet)).map pyLower).toFinset

/-- The wallet set built by `calculate_december_metrics`
(src/polymarket_scraper.py lines 272-281): `wallet = e.get(field)` then
`if wallet: add(wallet.lower())`; Python truthiness drops both a missing
key and an empty string. -/
def decWalletSet (events : List RawEvent) : Finset String :=
  (events.filterMap (fun e =>
    match e.wallet with
    | some w => if w = "" then none else some (pyLower w)
    | none => none)).toFinset

/-- The input to one month of the aggregation fold: the month label and
the two event files loaded for that month. -/
structure MonthInput where
  month : String
  splits : List RawEvent
  redemptions : List RawEvent
deriving Repr

instance : Inhabited MonthInput := ⟨⟨"", [], []⟩⟩

/-- The active set of a month input: splitters ∪ redeemers (src/app.py
line 51). -/
def activeOf (m : MonthInput) : Finset String :=
  appWalletSet m.splits ∪ appWalletSet m.redemptions

/-- One iteration of the per-month computation inside `load_monthly_data`
(src/app.py lines 48-89): from the month's splits and redemptions and the
cohort state as it stood before the month, produce the metrics record and
the updated cohort state. -/
def processMonth (month : String) (splits redemptions : List RawEvent)
    (st : CohortState) : MonthlyMetrics × CohortState :=
  let splitters := appWalletSet splits
  let redeemers := appWalletSet redemptions
  let total_active := splitters ∪ redeemers
  let both := splitters ∩ redeemers
  let new_splitters := splitters \ st.all_splitters_seen
  let new_redeemers := redeemers \ st.all_redeemers_seen
  let new_users := total_active \ st.all_users_seen
  let returning_users := total_active \ new_users
  let st' : CohortState :=
    { all_splitters_seen := st.all_splitters_seen ∪ splitters
      all_redeemers_seen := st.all_redeemers_seen ∪ redeemers
      all_users_seen := st.all_users_seen ∪ total_active }
  ({ month := month
     unique_splitters := splitters.card
     unique_redeemers := redeemers.card
     monthly_active_users := total_active.card
     split_and_redeemed := both.card
     only_split := (splitters \ redeemers).card
     only_redeemed := (redeemers \ splitters).card
     total_splits := splits.length
     total_redemptions := redemptions.length
     redeemer_splitter_ratio :=
       if 0 < splitters.card then (redeemers.card : ℚ) / splitters.card else 0
     new_users := new_users.card
     new_splitters := new_splitters.card
     new_redeemers := new_redeemers.card
     returning_users := returning_users.card
     retention_rate :=
       if 0 < total_active.card then
         (returning_users.card : ℚ) / total_active.card * 100
       else 0
     cumulative_users := st'.all_users_seen.card
     cumulative_splitters := st'.all_splitters_seen.card
     cumulative_redeemers := st'.all_redeemers_seen.card }, st')

/-- The chronological fold of `load_monthly_data` over the months that
loaded successfully (src/app.py lines 35-95): the cohort state threads
from each month into the next, and one metrics record is appended per
month. -/
def processMonths : List MonthInput → CohortState →
    List MonthlyMetrics × CohortState
  | [], st => ([], st)
  | m :: rest, st =>
    let p := processMonth m.month m.splits m.redemptions st
    let q := processMonths rest p.2
    (p.1 :: q.1, q.2)

/-- The metrics dict produced by `calculate_december_metrics`
(src/polymarket_scraper.py lines 266-299). -/
structure DecMetrics where
  month : String
  unique_traders : Nat
  unique_redeemers : Nat
  monthly_active_users : Nat
  traded_and_redeemed : Nat
  only_traded : Nat
  only_redeemed : Nat
  total_splits : Nat
  total_redemptions : Nat
deriving DecidableEq, Repr

/-- `calculate_december_metrics(splits, redemptions)`
(src/polymarket_scraper.py lines 266-299). -/
def calculate_december_metrics (splits redemptions : List RawEvent) :
    DecMetrics :=
  let traders := decWalletSet splits
  let redeemers := decWalletSet redemptions
  let total_active := traders ∪ redeemers
  let both := traders ∩ redeemers
  { month := "December 2025"
    unique_traders := traders.card
    unique_redeemers := redeemers.card
    monthly_active_users := total_active.card
    traded_and_redeemed := both.card
    only_traded := (traders \ redeemers).card
    only_redeemed := (redeemers \ traders).card
    total_splits := splits.length
    total_redemptions := redemptions.length }

/-- The union of the active sets of the first `i` months: the wallets the
cohort state has seen once those months have been folded in. -/
def prevActive (months : List MonthInput) (i : Nat) : Finset String :=
  ((months.take i).map activeOf).foldr (· ∪ ·) ∅

/-! ### Pagination loop (src/polymarket_scraper.py `fetch_data_for_period`) -/

/-- An event returned by the subgraph; only the `timestamp` field drives
the pagination logic, so the other fields are omitted here. -/
structure PageEvent where
  timestamp : Nat
deriving DecidableEq, Repr

/-- One decoded upstream response: `hasErrors` models the presence of a
top-level `errors` field, `events` models `result['data'][query_name]`. -/
structure GraphResponse where
  hasErrors : Bool
  events : List PageEvent
deriving Repr

/-- `int(data[-1]['timestamp'])`: the timestamp of the last event of a
(nonempty) page. -/
def lastTimestamp (data : List PageEvent) : Nat :=
  (data.getLastD ⟨0⟩).timestamp

/-- The `while True` pagination loop of `fetch_data_for_period`
(src/polymarket_scraper.py lines 57-101).  The upstream is abstracted as
`resp`, a function from the current cursor (`last_timestamp`, the strict
upper bound `timestamp_lt` of the query) to the decoded response.  `fuel`
bounds the number of iterations; `none` means the fuel ran out, i.e. the
loop did not terminate within `fuel` iterations. -/
def fetchAux (resp : Nat → GraphResponse) (batch_size : Nat) :
    Nat → Nat → List PageEvent → Option (List PageEvent)
  | 0, _, _ => none
  | fuel + 1, last_timestamp, all_data =>
    let result := resp last_timestamp
    if result.hasErrors then some all_data
    else
      let data := result.events
      if data = [] then some all_data
      else
        let acc := all_data ++ data
        let cursor := lastTimestamp data
        if data.length < batch_size then some acc
        else fetchAux resp batch_size fuel cursor acc

/-- `fetch_data_for_period(start_timestamp, end_timestamp)`: cursor
initialised to `end_timestamp`, batch size 1000, accumulator empty.  The
fuel `end_timestamp - start_timestamp + 1` is sufficient for any upstream
respecting the query bounds (proved below): the cursor strictly decreases
and stays in `[start_timestamp, end_timestamp]`. -/
def fetch_data_for_period (resp : Nat → GraphResponse)
    (start_timestamp end_timestamp : Nat) : Option (List PageEvent) :=
  fetchAux resp 1000 (end_timestamp - start_timestamp + 1) end_timestamp []

/-- The upstream honours the query's `where` clause: every event of the
page served at `cursor` has `start_timestamp <= timestamp < cursor`. -/
def ConsistentResp (resp : Nat → GraphResponse) (start_timestamp : Nat) :
    Prop :=
  ∀ cursor e, e ∈ (resp cursor).events →
    start_timestamp ≤ e.timestamp ∧ e.timestamp < cursor

/-! ### Retry client (src/polymarket_scraper.py `query_graphql`) -/

/-- What one `requests.post` attempt produces: an HTTP response with a
status code and a body, or a network-level `RequestException`. -/
inductive UpstreamResult where
  | http (status : Nat) (body : String)
  | netError (msg : String)
deriving DecidableEq, Repr

/-- The failure modes of `query_graphql`: the fatal non-200 non-5xx
`Exception`, a re-raised network exception on the last attempt, and the
final `Exception("Max retries exceeded")`. -/
inductive QueryFailure where
  | badStatus (status : Nat) (body : String)
  | networkFailure (msg : String)
  | maxRetriesExceeded
deriving DecidableEq, Repr

/-- `response.status_code in [502, 503, 504]`. -/
def retryableStatus (status : Nat) : Bool :=
  status = 502 || status = 503 || status = 504

/-- The `for attempt in range(max_retries)` loop of `query_graphql`
(src/polymarket_scraper.py lines 16-38).  `resp n` is the outcome of the
attempt numbered `n` (counted from 0); `jitter n` models
`random.uniform(0, 1)` drawn before the retry that follows attempt `n`;
the returned list records every `time.sleep` duration in order, each
`2 ^ attempt + jitter attempt` seconds. -/
def queryAux (resp : Nat → UpstreamResult) (jitter : Nat → ℚ)
    (max_retries : Nat) :
    Nat → Nat → List ℚ → Except QueryFailure (String × List ℚ)
  | 0, _, _ => .error .maxRetriesExceeded
  | remaining + 1, attempt, delays =>
    match resp attempt with
    | .http status body =>
      if status = 200 then .ok (body, delays)
      else if retryableStatus status then
        queryAux resp jitter max_retries remaining (attempt + 1)
          (delays ++ [(2 : ℚ) ^ attempt + jitter attempt])
      else .error (.badStatus status body)
    | .netError msg =>
      if attempt = max_retries - 1 then .error (.networkFailure msg)
      else
        queryAux resp jitter max_retries remaining (attempt + 1)
          (delays ++ [(2 : ℚ) ^ attempt + jitter attempt])

/-- The default `max_retries=5` of `query_graphql`. -/
def default_max_retries : Nat := 5

/-- `query_graphql(query, max_retries)`: run the attempt loop from
attempt 0 with no sleeps recorded yet. -/
def query_graphql (resp : Nat → UpstreamResult) (jitter : Nat → ℚ)
    (max_retries : Nat) : Except QueryFailure (String × List ℚ) :=
  queryAux resp jitter max_retries max_retries 0 []

/-- The attempt outcomes that `query_graphql` retries: an HTTP response
with status 502, 503 or 504 (any attempt), or a network-level exception
on any attempt other than the last (`attempt == max_retries - 1`
re-raises instead of retrying). -/
def retryableAt (resp : Nat → UpstreamResult) (max_retries attempt : Nat) :
    Prop :=
  (∃ status body, resp attempt = .http status body ∧
    retryableStatus status = true) ∨
  (∃ msg, resp attempt = .netError msg ∧ attempt ≠ max_retries - 1)

/-! ### Period planner (src/polymarket_scraper.py `get_periods`) -/

/-- A generated period.  `stop` is the `end` key of the source dict
(`end` is a reserved word in Lean); both bounds are epoch seconds, the
interval is half-open `[start, stop)`. -/
structure Period where
  start : Nat
  stop : Nat
deriving DecidableEq, Repr

/-- The calendar day of an epoch timestamp: the granularity at which
`strftime('%Y-%m-%d')` renders it (the rendering is injective in this
day number). -/
def dayOf (ts : Nat) : Nat := ts / 86400

/-- The period's label as used in file names:
`f"{start:%Y-%m-%d}_to_{end:%Y-%m-%d}"`, modelled at its day
granularity. -/
def Period.label (p : Period) : Nat × Nat := (dayOf p.start, dayOf p.stop)

/-- The string rendering of the label (the `name` key of the source
dict). -/
def Period.name (p : Period) : String :=
  toString (dayOf p.start) ++ "_to_" ++ toString (dayOf p.stop)

/-- The `while current_date < DEC_2025_END` loop of `get_periods`
(src/polymarket_scraper.py lines 108-118), generalised over the range
bounds and window length per the spec contract
`plan(rangeStart, rangeEnd, windowLength)`.  `fuel` bounds the iteration
count; each iteration emits `[current, min(current + window, stop))` and
advances `current` to that period's end. -/
def get_periods_aux (window stop : Nat) : Nat → Nat → List Period
  | 0, _ => []
  | fuel + 1, current =>
    if current < stop then
      let period_end := min (current + window) stop
      { start := current, stop := period_end } ::
        get_periods_aux window stop fuel period_end
    else []

/-- The generalised period planner.  The fuel `stop - start` suffices
whenever `1 ≤ window` (each iteration advances `current` by at least
one second), which the theorems below assume. -/
def get_periods_gen (start stop window : Nat) : List Period :=
  get_periods_aux window stop (stop - start) start

/-- `datetime(2025, 12, 1)` as a UTC epoch timestamp (the source uses
naive local datetimes; UTC is assumed here). -/
def DEC_2025_START_TS : Nat := 1764547200

/-- `datetime(2026, 1, 1)` as a UTC epoch timestamp. -/
def DEC_2025_END_TS : Nat := 1767225600

/-- `timedelta(days=10)` in seconds. -/
def ten_days : Nat := 10 * 86400

/-- `get_periods()` as called by the source: the fixed December range cut
into 10-day windows. -/
def get_periods : List Period :=
  get_periods_gen DEC_2025_START_TS DEC_2025_END_TS ten_days

/-! ### Report loader (src/polymarket_scraper.py `load_existing_data`) -/

/-- The cumulative file path for splits. -/
def splits_cumulative_file : String :=
  "polymarket_data/all_splits_cumulative.json"

/-- The cumulative file path for redemptions. -/
def redemptions_cumulative_file : String :=
  "polymarket_data/all_redemptions_cumulative.json"

/-- The per-period file path for splits. -/
def splits_period_file (name : String) : String :=
  "polymarket_data/splits_" ++ name ++ ".json"

/-- The per-period file path for redemptions. -/
def redemptions_period_file (name : String) : String :=
  "polymarket_data/redemptions_" ++ name ++ ".json"

/-- One kind's half of `load_existing_data` (src/polymarket_scraper.py
lines 229-261): try the cumulative file; on `FileNotFoundError` fall back
to the per-period files in period order, skipping any that are missing.
The filesystem is abstracted as `fs`, mapping a path to the parsed JSON
contents of the file, or `none` when opening raises
`FileNotFoundError`. -/
def loadKind (fs : String → Option (List RawEvent)) (cumFile : String)
    (periodFiles : List String) : List RawEvent :=
  match fs cumFile with
  | some d => d
  | none =>
    periodFiles.foldl
      (fun acc pf =>
        match fs pf with
        | some d => acc ++ d
        | none => acc) []

/-- `load_existing_data()` (src/polymarket_scraper.py lines 219-264):
splits then redemptions, each via the cumulative-first strategy over the
December periods. -/
def load_existing_data (fs : String → Option (List RawEvent)) :
    List RawEvent × List RawEvent :=
  (loadKind fs splits_cumulative_file
      (get_periods.map fun p => splits_period_file p.name),
   loadKind fs redemptions_cumulative_file
      (get_periods.map fun p => redemptions_period_file p.name))

/-- The two-month example scenario of the spec: month 1 splits by wallets
A and B and redemptions by B and C; month 2 splits by A and D and no
redemptions. -/
def exampleMonths : List MonthInput :=
  [⟨"2025-01", [⟨some "A"⟩, ⟨some "B"⟩], [⟨some "B"⟩, ⟨some "C"⟩]⟩,
   ⟨"2025-02", [⟨some "A"⟩, ⟨some "D"⟩], []⟩]

/-!
## Theorems
-/

/-- Helper: the retention-rate field of `processMonth`, with the two set
cardinalities abstracted, so that concrete instances reduce to literal
rational arithmetic. -/
theorem processMonth_retention_eq (month : String)
    (splits redemptions : List RawEvent) (st : CohortState) (a r : Nat)
    (ha : (appWalletSet splits ∪ appWalletSet redemptions).card = a)
    (hr : ((appWalletSet splits ∪ appWalletSet redemptions) \
      ((appWalletSet splits ∪ appWalletSet redemptions) \
        st.all_users_seen)).card = r) :
    ((processMonth month splits redemptions st).1).retention_rate =
      if 0 < a then (r : ℚ) / a * 100 else 0 := by
  subst ha hr; rfl

/-- C1: in the two-month scenario (month 1: split wallets A and B,
redemption wallets B and C; month 2: split wallets A and D, no
redemptions), folding `processMonths` chronologically from the empty
cohort state yields, for month 1, `unique_splitters = 2`,
`unique_redeemers = 2`, `monthly_active_users = 3`,
`split_and_redeemed = 1`, `only_split = 1`, `only_redeemed = 1`,
`new_users = 3` and `retention_rate = 0`; and, for month 2,
`new_users = 1`, `returning_users = 1` and `retention_rate = 50`. -/
theorem claim_C1 :
    ((processMonths exampleMonths emptyCohort).1.getD 0 default).unique_splitters = 2 ∧
    ((processMonths exampleMonths emptyCohort).1.getD 0 default).unique_redeemers = 2 ∧
    ((processMonths exampleMonths emptyCohort).1.getD 0 default).monthly_active_users = 3 ∧
    ((processMonths exampleMonths emptyCohort).1.getD 0 default).split_and_redeemed = 1 ∧
    ((processMonths exampleMonths emptyCohort).1.getD 0 default).only_split = 1 ∧
    ((processMonths exampleMonths emptyCohort).1.getD 0 default).only_redeemed = 1 ∧
    ((processMonths exampleMonths emptyCohort).1.getD 0 default).new_users = 3 ∧
    ((processMonths exampleMonths emptyCohort).1.getD 0 default).retention_rate = 0 ∧
    ((processMonths exampleMonths emptyCohort).1.getD 1 default).new_users = 1 ∧
    ((processMonths exampleMonths emptyCohort).1.getD 1 default).returning_users = 1 ∧
    ((processMonths exampleMonths emptyCohort).1.getD 1 default).retention_rate = 50 := by
  refine ⟨by decide, by decide, by decide, by decide, by decide, by decide, by decide,
    ?_, by decide, by decide, ?_⟩
  · show ((processMonth "2025-01" [⟨some "A"⟩, ⟨some "B"⟩] [⟨some "B"⟩, ⟨some "C"⟩]
      emptyCohort).1).retention_rate = 0
    rw [processMonth_retention_eq _ _ _ _ 3 0 (by decide) (by decide)]
    norm_num
  · show ((processMonth "2025-02" [⟨some "A"⟩, ⟨some "D"⟩] []
      (processMonth "2025-01" [⟨some "A"⟩, ⟨some "B"⟩] [⟨some "B"⟩, ⟨some "C"⟩]
        emptyCohort).2).1).retention_rate = 50
    rw [processMonth_retention_eq _ _ _ _ 2 1 (by decide) (by decide)]
    norm_num

/-- C3: for every month's inputs, the metrics record satisfies
`only_split + only_redeemed + split_and_redeemed = monthly_active_users`
and `only_split + split_and_redeemed = unique_splitters`; the analogous
`only_traded + only_redeemed + traded_and_redeemed =
monthly_active_users` holds for `calculate_december_metrics`. -/
theorem claim_C3 (month : String) (splits redemptions : List RawEvent)
    (st : CohortState) :
    (((processMonth month splits redemptions st).1).only_split +
        ((processMonth month splits redemptions st).1).only_redeemed +
        ((processMonth month splits redemptions st).1).split_and_redeemed =
      ((processMonth month splits redemptions st).1).monthly_active_users ∧
     ((processMonth month splits redemptions st).1).only_split +
        ((processMonth month splits redemptions st).1).split_and_redeemed =
      ((processMonth month splits redemptions st).1).unique_splitters) ∧
    (calculate_december_metrics splits redemptions).only_traded +
        (calculate_december_metrics splits redemptions).only_redeemed +
        (calculate_december_metrics splits redemptions).traded_and_redeemed =
      (calculate_december_metrics splits redemptions).monthly_active_users := by
  constructor
  · constructor
    · show (appWalletSet splits \ appWalletSet redemptions).card +
        (appWalletSet redemptions \ appWalletSet splits).card +
        (appWalletSet splits ∩ appWalletSet redemptions).card =
        (appWalletSet splits ∪ appWalletSet redemptions).card
      have h1 := Finset.card_sdiff_add_card (appWalletSet splits) (appWalletSet redemptions)
      have h2 := Finset.card_sdiff_add_card_inter (appWalletSet redemptions) (appWalletSet splits)
      rw [Finset.inter_comm] at h2
      omega
    · show (appWalletSet splits \ appWalletSet redemptions).card +
        (appWalletSet splits ∩ appWalletSet redemptions).card =
        (appWalletSet splits).card
      exact Finset.card_sdiff_add_card_inter _ _
  · show (decWalletSet splits \ decWalletSet redemptions).card +
      (decWalletSet redemptions \ decWalletSet splits).card +
      (decWalletSet splits ∩ decWalletSet redemptions).card =
      (decWalletSet splits ∪ decWalletSet redemptions).card
    have h1 := Finset.card_sdiff_add_card (decWalletSet splits) (decWalletSet redemptions)
    have h2 := Finset.card_sdiff_add_card_inter (decWalletSet redemptions) (decWalletSet splits)
    rw [Finset.inter_comm] at h2
    omega

/-- C4 counterexample: in `load_monthly_data` an event whose wallet field
is present but empty is *not* excluded — it contributes the empty string
as a member of the splitters set, so a single empty-wallet split event
yields `unique_splitters = 1`, contradicting the claim that such events
never contribute a member to any aggregation set. -/
theorem claim_C4_counterexample :
    "" ∈ appWalletSet [⟨some ""⟩] ∧
    ((processMonth "2025-01" [⟨some ""⟩] [] emptyCohort).1).unique_splitters = 1 := by
  decide

/-- C4 (amended): in `load_monthly_data` only an event whose wallet field
is *absent* is excluded from the wallet sets (an empty-string wallet
participates), while in `calculate_december_metrics` an event whose
wallet is absent or empty is excluded; in both cases the remaining events
of the batch are ingested unchanged. -/
theorem claim_C4_amended (e : RawEvent) (l : List RawEvent) :
    (e.wallet = none → appWalletSet (e :: l) = appWalletSet l) ∧
    (e.wallet = none ∨ e.wallet = some "" →
      decWalletSet (e :: l) = decWalletSet l) := by
  constructor
  · intro h; simp [appWalletSet, List.filterMap_cons, h]
  · rintro (h | h) <;> simp [decWalletSet, List.filterMap_cons, h]

/-- Witness for C4 (amended): concrete instances of both exclusions, with
the rest of the batch preserved. -/
theorem claim_C4_witness :
    appWalletSet [⟨none⟩, ⟨some "x"⟩] = appWalletSet [⟨some "x"⟩] ∧
    decWalletSet [⟨some ""⟩, ⟨some "x"⟩] = decWalletSet [⟨some "x"⟩] :=
  ⟨(claim_C4_amended ⟨none⟩ [⟨some "x"⟩]).1 rfl,
   (claim_C4_amended ⟨some ""⟩ [⟨some "x"⟩]).2 (Or.inr rfl)⟩

/-- C6: for every month's inputs, `retention_rate` lies in `[0, 100]`, is
exactly `0` when the month's active set is empty, and equals
`returning_users / monthly_active_users * 100` when the active set is
nonempty. -/
theorem claim_C6 (month : String) (splits redemptions : List RawEvent)
    (st : CohortState) :
    (0 ≤ ((processMonth month splits redemptions st).1).retention_rate ∧
      ((processMonth month splits redemptions st).1).retention_rate ≤ 100) ∧
    (appWalletSet splits ∪ appWalletSet redemptions = ∅ →
      ((processMonth month splits redemptions st).1).retention_rate = 0) ∧
    (appWalletSet splits ∪ appWalletSet redemptions ≠ ∅ →
      ((processMonth month splits redemptions st).1).retention_rate =
        (((processMonth month splits redemptions st).1).returning_users : ℚ) /
          ((processMonth month splits redemptions st).1).monthly_active_users
          * 100) := by
  have hrr : ((processMonth month splits redemptions st).1).retention_rate =
      if 0 < (appWalletSet splits ∪ appWalletSet redemptions).card then
        (((appWalletSet splits ∪ appWalletSet redemptions) \
          ((appWalletSet splits ∪ appWalletSet redemptions) \
            st.all_users_seen)).card : ℚ) /
          (appWalletSet splits ∪ appWalletSet redemptions).card * 100
      else 0 := rfl
  have hc : ((appWalletSet splits ∪ appWalletSet redemptions) \
      ((appWalletSet splits ∪ appWalletSet redemptions) \
        st.all_users_seen)).card ≤
      (appWalletSet splits ∪ appWalletSet redemptions).card :=
    Finset.card_le_card Finset.sdiff_subset
  refine ⟨⟨?_, ?_⟩, ?_, ?_⟩
  · rw [hrr]; split
    · positivity
    · exact le_refl 0
  · rw [hrr]; split
    · rename_i hpos
      have ha : (0:ℚ) < (appWalletSet splits ∪ appWalletSet redemptions).card := by
        exact_mod_cast hpos
      have hd : (((appWalletSet splits ∪ appWalletSet redemptions) \
          ((appWalletSet splits ∪ appWalletSet redemptions) \
            st.all_users_seen)).card : ℚ) /
          (appWalletSet splits ∪ appWalletSet redemptions).card ≤ 1 :=
        (div_le_one ha).mpr (by exact_mod_cast hc)
      calc (((appWalletSet splits ∪ appWalletSet redemptions) \
          ((appWalletSet splits ∪ appWalletSet redemptions) \
            st.all_users_seen)).card : ℚ) /
          (appWalletSet splits ∪ appWalletSet redemptions).card * 100
          ≤ 1 * 100 := by
            exact mul_le_mul_of_nonneg_right hd (by norm_num)
        _ = 100 := by norm_num
    · norm_num
  · intro h
    rw [hrr]
    simp [h]
  · intro h
    have hpos : 0 < (appWalletSet splits ∪ appWalletSet redemptions).card :=
      Finset.card_pos.mpr (Finset.nonempty_iff_ne_empty.mpr h)
    rw [hrr, if_pos hpos]
    rfl

/-- Witness for C6: the empty month has retention rate exactly 0. -/
theorem claim_C6_witness :
    ((processMonth "m" [] [] emptyCohort).1).retention_rate = 0 :=
  (claim_C6 "m" [] [] emptyCohort).2.1 (by decide)

/-- Helper: the fold over an appended month list threads the state
through the first part into the second. -/
theorem processMonths_append (l1 l2 : List MonthInput) (st : CohortState) :
    processMonths (l1 ++ l2) st =
      ((processMonths l1 st).1 ++ (processMonths l2 (processMonths l1 st).2).1,
        (processMonths l2 (processMonths l1 st).2).2) := by
  induction l1 generalizing st with
  | nil => simp [processMonths]
  | cons m rest ih => simp [processMonths, ih]

/-- Helper: the i-th record of the fold is the `processMonth` of the i-th
input, run against the state accumulated over the first i months. -/
theorem processMonths_getD (l : List MonthInput) (st : CohortState) (i : Nat)
    (h : i < l.length) :
    (processMonths l st).1.getD i default =
      (processMonth (l.getD i default).month (l.getD i default).splits
        (l.getD i default).redemptions (processMonths (l.take i) st).2).1 := by
  induction l generalizing st i with
  | nil => simp at h
  | cons m rest ih =>
    cases i with
    | zero => simp [processMonths]
    | succ i =>
      have h' : i < rest.length := by simpa using h
      exact ih (processMonth m.month m.splits m.redemptions st).2 i h'

/-- Helper: the `all_users_seen` component after the fold is the initial
set united with every month's active set. -/
theorem processMonths_allSeen (l : List MonthInput) (st : CohortState) :
    ((processMonths l st).2).all_users_seen =
      st.all_users_seen ∪ (l.map activeOf).foldr (· ∪ ·) ∅ := by
  induction l generalizing st with
  | nil => simp [processMonths]
  | cons m rest ih =>
    simp only [processMonths, List.map_cons, List.foldr_cons]
    rw [ih]
    rw [show ((processMonth m.month m.splits m.redemptions st).2).all_users_seen =
      st.all_users_seen ∪ activeOf m from rfl, Finset.union_assoc]

/-- Helper: the `all_users_seen` state standing before month `i` of the
fold. -/
theorem processMonths_take_allSeen (l : List MonthInput) (st : CohortState)
    (i : Nat) :
    ((processMonths (l.take i) st).2).all_users_seen =
      st.all_users_seen ∪ prevActive l i := by
  rw [processMonths_allSeen]; rfl

/-- Helper: membership in the union of the active sets of the months
before month `i`. -/
theorem mem_prevActive (l : List MonthInput) (i : Nat) (w : String) :
    w ∈ prevActive l i ↔
      ∃ j, j < i ∧ j < l.length ∧ w ∈ activeOf (l.getD j default) := by
  induction l generalizing i with
  | nil => simp [prevActive]
  | cons m rest ih =>
    cases i with
    | zero => simp [prevActive]
    | succ i =>
      simp only [prevActive, List.take_succ_cons, List.map_cons, List.foldr_cons,
        Finset.mem_union]
      rw [show ((rest.take i).map activeOf).foldr (· ∪ ·) ∅ = prevActive rest i from rfl]
      rw [ih]
      constructor
      · rintro (hw | ⟨j, hj, hjl, hw⟩)
        · exact ⟨0, Nat.succ_pos _, Nat.succ_pos _, hw⟩
        · exact ⟨j + 1, by omega, by simpa using Nat.succ_lt_succ hjl, by simpa using hw⟩
      · rintro ⟨j, hj, hjl, hw⟩
        cases j with
        | zero => exact Or.inl hw
        | succ j => exact Or.inr ⟨j, by omega, by simpa using hjl, by simpa using hw⟩

/-- C2: the fold computes each month's new/returning fields from the
cohort state as it stood before that month and updates the state only
afterwards: folding month-by-month with each output state feeding the
next call equals a single pass over the appended history, the i-th
record's `new_users` is the cardinality of that month's active set minus
the union of all earlier active sets (and `returning_users` the active
wallets already seen), and a wallet lies in month i's new set iff it is
active in month i and in no earlier month — hence it is new in its first
active month and in no other. -/
theorem claim_C2 :
    (∀ (l1 l2 : List MonthInput) (st : CohortState),
        processMonths (l1 ++ l2) st =
          ((processMonths l1 st).1 ++
            (processMonths l2 (processMonths l1 st).2).1,
            (processMonths l2 (processMonths l1 st).2).2)) ∧
    (∀ (l : List MonthInput) (i : Nat), i < l.length → ∀ w : String,
        (((processMonths l emptyCohort).1.getD i default).new_users =
            (activeOf (l.getD i default) \ prevActive l i).card ∧
          ((processMonths l emptyCohort).1.getD i default).returning_users =
            (activeOf (l.getD i default) \
              (activeOf (l.getD i default) \ prevActive l i)).card) ∧
        (w ∈ activeOf (l.getD i default) \ prevActive l i ↔
          w ∈ activeOf (l.getD i default) ∧
            ∀ j, j < i → w ∉ activeOf (l.getD j default))) := by
  refine ⟨processMonths_append, ?_⟩
  intro l i h w
  have hseen := processMonths_take_allSeen l emptyCohort i
  have hempty : (emptyCohort.all_users_seen : Finset String) = ∅ := rfl
  rw [hempty, Finset.empty_union] at hseen
  constructor
  · constructor
    · rw [processMonths_getD l emptyCohort i h]
      rw [show ((processMonth (l.getD i default).month (l.getD i default).splits
        (l.getD i default).redemptions (processMonths (l.take i) emptyCohort).2).1).new_users =
        (activeOf (l.getD i default) \
          ((processMonths (l.take i) emptyCohort).2).all_users_seen).card from rfl]
      rw [hseen]
    · rw [processMonths_getD l emptyCohort i h]
      rw [show ((processMonth (l.getD i default).month (l.getD i default).splits
        (l.getD i default).redemptions (processMonths (l.take i) emptyCohort).2).1).returning_users =
        (activeOf (l.getD i default) \ (activeOf (l.getD i default) \
          ((processMonths (l.take i) emptyCohort).2).all_users_seen)).card from rfl]
      rw [hseen]
  · rw [Finset.mem_sdiff, mem_prevActive]
    constructor
    · rintro ⟨hw, hnot⟩
      refine ⟨hw, fun j hj hmem => hnot ⟨j, hj, by omega, hmem⟩⟩
    · rintro ⟨hw, hall⟩
      exact ⟨hw, fun ⟨j, hj, _, hmem⟩ => hall j hj hmem⟩

/-- Witness for C2: the two conjuncts applied to a concrete two-month
history where wallet "a" is active in both months. -/
theorem claim_C2_witness :
    (processMonths ([⟨"01", [⟨some "a"⟩], []⟩] ++ [⟨"02", [⟨some "a"⟩], []⟩])
        emptyCohort =
      ((processMonths [⟨"01", [⟨some "a"⟩], []⟩] emptyCohort).1 ++
        (processMonths [⟨"02", [⟨some "a"⟩], []⟩]
          (processMonths [⟨"01", [⟨some "a"⟩], []⟩] emptyCohort).2).1,
        (processMonths [⟨"02", [⟨some "a"⟩], []⟩]
          (processMonths [⟨"01", [⟨some "a"⟩], []⟩] emptyCohort).2).2)) ∧
    ((((processMonths [⟨"01", [⟨some "a"⟩], []⟩, ⟨"02", [⟨some "a"⟩], []⟩]
            emptyCohort).1.getD 1 default).new_users =
          (activeOf ([⟨"01", [⟨some "a"⟩], []⟩,
              ⟨"02", [⟨some "a"⟩], []⟩].getD 1 default) \
            prevActive [⟨"01", [⟨some "a"⟩], []⟩, ⟨"02", [⟨some "a"⟩], []⟩] 1).card ∧
        (((processMonths [⟨"01", [⟨some "a"⟩], []⟩, ⟨"02", [⟨some "a"⟩], []⟩]
            emptyCohort).1.getD 1 default).returning_users =
          (activeOf ([⟨"01", [⟨some "a"⟩], []⟩,
              ⟨"02", [⟨some "a"⟩], []⟩].getD 1 default) \
            (activeOf ([⟨"01", [⟨some "a"⟩], []⟩,
                ⟨"02", [⟨some "a"⟩], []⟩].getD 1 default) \
              prevActive [⟨"01", [⟨some "a"⟩], []⟩,
                ⟨"02", [⟨some "a"⟩], []⟩] 1)).card)) ∧
      ("a" ∈ activeOf ([⟨"01", [⟨some "a"⟩], []⟩,
            ⟨"02", [⟨some "a"⟩], []⟩].getD 1 default) \
          prevActive [⟨"01", [⟨some "a"⟩], []⟩, ⟨"02", [⟨some "a"⟩], []⟩] 1 ↔
        "a" ∈ activeOf ([⟨"01", [⟨some "a"⟩], []⟩,
            ⟨"02", [⟨some "a"⟩], []⟩].getD 1 default) ∧
          ∀ j, j < 1 →
            "a" ∉ activeOf ([⟨"01", [⟨some "a"⟩], []⟩,
              ⟨"02", [⟨some "a"⟩], []⟩].getD j default))) :=
  ⟨claim_C2.1 [⟨"01", [⟨some "a"⟩], []⟩] [⟨"02", [⟨some "a"⟩], []⟩] emptyCohort,
   claim_C2.2 [⟨"01", [⟨some "a"⟩], []⟩, ⟨"02", [⟨some "a"⟩], []⟩] 1 (by decide) "a"⟩

/-- Helper: the last element (with default) of a nonempty list is a
member of it. -/
theorem getLastD_mem {α : Type} (l : List α) (d : α) (h : l ≠ []) :
    l.getLastD d ∈ l := by
  induction l generalizing d with
  | nil => exact absurd rfl h
  | cons a t ih =>
    rw [List.getLastD_cons]
    cases t with
    | nil => exact List.mem_singleton.mpr rfl
    | cons b u => exact List.mem_cons_of_mem a (ih a (by simp))

/-- Helper: under a bound-respecting upstream, the pagination loop
terminates within `cursor - start + 1` iterations: every full page moves
the cursor strictly down while it stays at or above `start`. -/
theorem fetchAux_isSome (resp : Nat → GraphResponse) (s : Nat)
    (h : ConsistentResp resp s) :
    ∀ (fuel cursor : Nat) (acc : List PageEvent), cursor - s < fuel →
      ∃ out, fetchAux resp 1000 fuel cursor acc = some out := by
  intro fuel
  induction fuel with
  | zero => intro cursor acc hf; omega
  | succ fuel ih =>
    intro cursor acc hf
    cases he : (resp cursor).hasErrors with
    | true => exact ⟨acc, by simp [fetchAux, he]⟩
    | false =>
      by_cases hd : (resp cursor).events = []
      · exact ⟨acc, by simp [fetchAux, he, hd]⟩
      · by_cases hlen : (resp cursor).events.length < 1000
        · exact ⟨acc ++ (resp cursor).events, by simp [fetchAux, he, hd, hlen]⟩
        · have hmem : (resp cursor).events.getLastD ⟨0⟩ ∈ (resp cursor).events :=
            getLastD_mem _ _ hd
          have hb := h cursor _ hmem
          have hrec : lastTimestamp (resp cursor).events - s < fuel := by
            have h1 : s ≤ lastTimestamp (resp cursor).events := hb.1
            have h2 : lastTimestamp (resp cursor).events < cursor := hb.2
            omega
          obtain ⟨out, hout⟩ :=
            ih (lastTimestamp (resp cursor).events) (acc ++ (resp cursor).events) hrec
          exact ⟨out, by simp [fetchAux, he, hd, hlen, hout]⟩

/-- C5: for every upstream response function honouring the query bounds
(each event's timestamp `t` satisfies `start <= t < cursor`), the
pagination loop of `fetch_data_for_period` terminates (the allotted fuel
is never exhausted), because after each full page the new cursor — the
last, oldest event's timestamp — is strictly below the previous cursor
and bounded below by `start_timestamp`. -/
theorem claim_C5 (resp : Nat → GraphResponse) (s e : Nat)
    (h : ConsistentResp resp s) :
    (∃ out, fetch_data_for_period resp s e = some out) ∧
    (∀ cursor, (resp cursor).events ≠ [] →
      s ≤ lastTimestamp (resp cursor).events ∧
        lastTimestamp (resp cursor).events < cursor) := by
  constructor
  · exact fetchAux_isSome resp s h (e - s + 1) e [] (by omega)
  · intro cursor hne
    exact h cursor _ (getLastD_mem _ _ hne)

/-- Witness for C5: the loop terminates against an upstream that always
serves an empty page. -/
theorem claim_C5_witness :
    (∃ out, fetch_data_for_period (fun _ => ⟨false, []⟩) 0 5 = some out) ∧
    (∀ cursor, ((fun (_ : Nat) => (⟨false, []⟩ : GraphResponse)) cursor).events ≠ [] →
      0 ≤ lastTimestamp ((fun (_ : Nat) => (⟨false, []⟩ : GraphResponse)) cursor).events ∧
        lastTimestamp ((fun (_ : Nat) => (⟨false, []⟩ : GraphResponse)) cursor).events < cursor) :=
  claim_C5 (fun _ => ⟨false, []⟩) 0 5
    (fun _ ev hm => absurd hm (List.not_mem_nil ev))

set_option maxRecDepth 100000 in
/-- C8: a 200 response whose body carries a top-level `errors` field does
not raise: the loop stops pagination at that point and returns exactly
the events accumulated from the earlier pages — in particular, after one
full 1000-event page followed by an `errors` response, the result is
that first page. -/
theorem claim_C8 (resp : Nat → GraphResponse) :
    (∀ (batch_size fuel cursor : Nat) (acc : List PageEvent),
        0 < fuel → (resp cursor).hasErrors = true →
        fetchAux resp batch_size fuel cursor acc = some acc) ∧
    (∀ s e, (resp e).hasErrors = true →
        fetch_data_for_period resp s e = some []) ∧
    (fetch_data_for_period
        (fun c => if c = 5 then ⟨true, []⟩ else ⟨false, List.replicate 1000 ⟨5⟩⟩)
        0 20 =
      some (List.replicate 1000 ⟨5⟩)) := by
  refine ⟨?_, ?_, ?_⟩
  · intro batch_size fuel cursor acc hf he
    cases fuel with
    | zero => omega
    | succ fuel => simp [fetchAux, he]
  · intro s e he
    show fetchAux resp 1000 (e - s + 1) e [] = some []
    simp [fetchAux, he]
  · decide

/-- Witness for C8: an immediate `errors` response returns the
accumulator unchanged, and an `errors`-only upstream yields an empty
window. -/
theorem claim_C8_witness :
    fetchAux (fun _ => ⟨true, []⟩) 1000 1 7 [⟨3⟩] = some [⟨3⟩] ∧
    fetch_data_for_period (fun _ => ⟨true, []⟩) 0 9 = some [] :=
  ⟨(claim_C8 (fun _ => ⟨true, []⟩)).1 1000 1 7 [⟨3⟩] (by decide) rfl,
   (claim_C8 (fun _ => ⟨true, []⟩)).2.1 0 9 rfl⟩

/-- Helper: the planner loop emits nothing once the current date has
reached the range end. -/
theorem aux_nil (w e c : Nat) (h : ¬ c < e) :
    ∀ fuel, get_periods_aux w e fuel c = [] := by
  intro fuel
  cases fuel with
  | zero => rfl
  | succ fuel => simp [get_periods_aux, h]

/-- Helper: with fuel left and the range not yet exhausted, the next
emitted period starts at the current date and ends at
`min (current + window) stop`. -/
theorem aux_head (w e c : Nat) (fuel : Nat) (hc : c < e) (hf : 1 ≤ fuel) :
    (get_periods_aux w e fuel c).head? =
      some ⟨c, min (c + w) e⟩ := by
  cases fuel with
  | zero => omega
  | succ fuel => simp [get_periods_aux, hc]

/-- Helper: every emitted period is a nonempty interval between the
current date and the range end. -/
theorem aux_mem (w e : Nat) (hw : 1 ≤ w) :
    ∀ (fuel c : Nat) (p : Period), p ∈ get_periods_aux w e fuel c →
      c ≤ p.start ∧ p.start < p.stop ∧ p.stop ≤ e := by
  intro fuel
  induction fuel with
  | zero => intro c p hp; simp [get_periods_aux] at hp
  | succ fuel ih =>
    intro c p hp
    by_cases hc : c < e
    · simp only [get_periods_aux, if_pos hc, List.mem_cons] at hp
      rcases hp with rfl | hp
      · refine ⟨le_refl c, ?_, min_le_right _ _⟩
        show c < min (c + w) e
        exact lt_min (by omega) hc
      · have h1 := ih (min (c + w) e) p hp
        have h2 : c ≤ min (c + w) e := le_min (by omega) (le_of_lt hc)
        exact ⟨le_trans h2 h1.1, h1.2.1, h1.2.2⟩
    · rw [aux_nil w e c hc] at hp
      simp at hp

/-- Helper: consecutive emitted periods are contiguous, and every period
followed by another has length exactly `window`. -/
theorem aux_chain (w e : Nat) (hw : 1 ≤ w) :
    ∀ (fuel c : Nat), e - c ≤ fuel →
      List.Chain' (fun p q => p.stop = q.start ∧ p.stop - p.start = w)
        (get_periods_aux w e fuel c) := by
  intro fuel
  induction fuel with
  | zero => intro c hf; rw [aux_nil w e c (by omega)]; exact List.chain'_nil
  | succ fuel ih =>
    intro c hf
    by_cases hc : c < e
    · simp only [get_periods_aux, if_pos hc]
      rw [List.chain'_cons']
      have hgt : c < min (c + w) e := lt_min (by omega) hc
      refine ⟨?_, ih (min (c + w) e) (by omega)⟩
      intro q hq
      by_cases hce : min (c + w) e < e
      · rw [aux_head w e _ fuel hce (by omega)] at hq
        have hmin : min (c + w) e = c + w := by omega
        simp only [Option.mem_def, Option.some.injEq] at hq
        subst hq
        exact ⟨rfl, by simp [hmin]⟩
      · rw [aux_nil w e _ hce] at hq
        simp at hq
    · rw [aux_nil w e c hc]; exact List.chain'_nil

/-- Helper: with sufficient fuel the final emitted period ends exactly at
the range end. -/
theorem aux_last (w e : Nat) (hw : 1 ≤ w) :
    ∀ (fuel c : Nat) (d : Period), c < e → e - c ≤ fuel →
      ((get_periods_aux w e fuel c).getLastD d).stop = e := by
  intro fuel
  induction fuel with
  | zero => intro c d hc hf; omega
  | succ fuel ih =>
    intro c d hc hf
    simp only [get_periods_aux, if_pos hc]
    rw [List.getLastD_cons]
    by_cases hce : min (c + w) e < e
    · exact ih (min (c + w) e) _ hce (by omega)
    · rw [aux_nil w e _ hce]
      show (min (c + w) e) = e
      omega

/-- Helper: with sufficient fuel every timestamp of the remaining range
falls inside some emitted period. -/
theorem aux_cover (w e : Nat) (hw : 1 ≤ w) :
    ∀ (fuel c t : Nat), e - c ≤ fuel → c ≤ t → t < e →
      ∃ p ∈ get_periods_aux w e fuel c, p.start ≤ t ∧ t < p.stop := by
  intro fuel
  induction fuel with
  | zero => intro c t hf hct hte; omega
  | succ fuel ih =>
    intro c t hf hct hte
    have hc : c < e := lt_of_le_of_lt hct hte
    simp only [get_periods_aux, if_pos hc]
    by_cases ht : t < min (c + w) e
    · exact ⟨⟨c, min (c + w) e⟩, List.mem_cons_self _ _, hct, ht⟩
    · have hgt : c < min (c + w) e := lt_min (by omega) hc
      obtain ⟨p, hp, hpt⟩ := ih (min (c + w) e) t (by omega) (by omega) hte
      exact ⟨p, List.mem_cons_of_mem _ hp, hpt⟩

/-- Helper: the emitted periods are pairwise non-overlapping (each ends
no later than any later one starts). -/
theorem aux_pairwise_disjoint (w e : Nat) (hw : 1 ≤ w) :
    ∀ (fuel c : Nat),
      List.Pairwise (fun p q => p.stop ≤ q.start)
        (get_periods_aux w e fuel c) := by
  intro fuel
  induction fuel with
  | zero => intro c; exact List.Pairwise.nil
  | succ fuel ih =>
    intro c
    by_cases hc : c < e
    · simp only [get_periods_aux, if_pos hc]
      refine List.Pairwise.cons ?_ (ih (min (c + w) e))
      intro q hq
      exact (aux_mem w e hw fuel (min (c + w) e) q hq).1
    · rw [aux_nil w e c hc]; exact List.Pairwise.nil

/-- Helper: when the window is at least one day, the start days of the
emitted periods are strictly increasing. -/
theorem aux_pairwise_day (w e : Nat) (hw : 86400 ≤ w) :
    ∀ (fuel c : Nat),
      List.Pairwise (fun p q => dayOf p.start < dayOf q.start)
        (get_periods_aux w e fuel c) := by
  intro fuel
  induction fuel with
  | zero => intro c; exact List.Pairwise.nil
  | succ fuel ih =>
    intro c
    by_cases hc : c < e
    · simp only [get_periods_aux, if_pos hc]
      refine List.Pairwise.cons ?_ (ih (min (c + w) e))
      intro q hq
      have hne : get_periods_aux w e fuel (min (c + w) e) ≠ [] := by
        intro hnil; rw [hnil] at hq; simp at hq
      have hce : min (c + w) e < e := by
        by_contra hno
        exact hne (aux_nil w e _ hno fuel)
      have hmin : min (c + w) e = c + w := by omega
      have hqs : min (c + w) e ≤ q.start :=
        (aux_mem w e (by omega) fuel (min (c + w) e) q hq).1
      have h1 : dayOf (c + 86400) ≤ dayOf q.start := by
        apply Nat.div_le_div_right
        omega
      have h2 : dayOf (c + 86400) = dayOf c + 1 :=
        Nat.add_div_right c (by norm_num)
      show dayOf c < dayOf q.start
      omega
    · rw [aux_nil w e c hc]; exact List.Pairwise.nil



/-- C7 counterexample: the claim quantifies over every `windowLength`,
but for the sub-day window `(start, end, window) = (0, 7200, 3600)` the
planner emits two distinct periods whose date-derived labels (and
rendered names) coincide, so the label-uniqueness part of the claim
fails. -/
theorem claim_C7_counterexample :
    (get_periods_gen 0 7200 3600).length = 2 ∧
    ((get_periods_gen 0 7200 3600).getD 0 ⟨0, 0⟩).label =
      ((get_periods_gen 0 7200 3600).getD 1 ⟨0, 0⟩).label ∧
    ((get_periods_gen 0 7200 3600).getD 0 ⟨0, 0⟩).name =
      ((get_periods_gen 0 7200 3600).getD 1 ⟨0, 0⟩).name ∧
    ((get_periods_gen 0 7200 3600).getD 0 ⟨0, 0⟩) ≠
      ((get_periods_gen 0 7200 3600).getD 1 ⟨0, 0⟩) := by
  decide

/-- C7 (amended): for any range with `end > start` and a window length of
at least one day (86400 s — date-granular labels collide for sub-day
windows; the source always uses 10 days), the planner returns a nonempty
ordered sequence of periods that are contiguous (each period's end is the
next period's start), pairwise non-overlapping, and exactly cover
`[start, end)`: the first period starts at `start`, the last ends at
`end` even if shorter, every non-final period has length exactly
`windowLength`, every timestamp of the range lies in a period and every
period lies inside the range; and the date-derived labels are unique
within the sequence. -/
theorem claim_C7_amended (start stop window : Nat)
    (hse : start < stop) (hw : 86400 ≤ window) :
    (get_periods_gen start stop window ≠ [] ∧
      (get_periods_gen start stop window).head?.map Period.start = some start) ∧
    List.Chain' (fun p q => p.stop = q.start ∧ p.stop - p.start = window)
      (get_periods_gen start stop window) ∧
    ((get_periods_gen start stop window).getLastD ⟨0, 0⟩).stop = stop ∧
    (∀ p ∈ get_periods_gen start stop window,
      start ≤ p.start ∧ p.start < p.stop ∧ p.stop ≤ stop) ∧
    List.Pairwise (fun p q => p.stop ≤ q.start)
      (get_periods_gen start stop window) ∧
    (∀ t, start ≤ t → t < stop →
      ∃ p ∈ get_periods_gen start stop window, p.start ≤ t ∧ t < p.stop) ∧
    List.Pairwise (fun p q => p.label ≠ q.label)
      (get_periods_gen start stop window) := by
  have hw1 : 1 ≤ window := by omega
  have hfuel : stop - start ≤ stop - start := le_refl _
  have hhead := aux_head window stop start (stop - start) hse (by omega)
  refine ⟨⟨?_, ?_⟩, ?_, ?_, ?_, ?_, ?_, ?_⟩
  · intro hnil
    rw [show get_periods_aux window stop (stop - start) start =
      get_periods_gen start stop window from rfl, hnil] at hhead
    simp at hhead
  · rw [show get_periods_gen start stop window =
      get_periods_aux window stop (stop - start) start from rfl]
    rw [hhead]
    rfl
  · exact aux_chain window stop hw1 (stop - start) start hfuel
  · exact aux_last window stop hw1 (stop - start) start _ hse hfuel
  · exact fun p hp => aux_mem window stop hw1 (stop - start) start p hp
  · exact aux_pairwise_disjoint window stop hw1 (stop - start) start
  · exact fun t h1 h2 => aux_cover window stop hw1 (stop - start) start t hfuel h1 h2
  · exact (aux_pairwise_day window stop hw (stop - start) start).imp
      (fun hlt hlab => absurd (congrArg Prod.fst hlab) (Nat.ne_of_lt hlt))



/-- Witness for C7 (amended): the planner at the source's own December
2025 parameters (10-day windows). -/
theorem claim_C7_witness :
    ((get_periods_gen DEC_2025_START_TS DEC_2025_END_TS ten_days ≠ [] ∧
      (get_periods_gen DEC_2025_START_TS DEC_2025_END_TS ten_days).head?.map
          Period.start = some DEC_2025_START_TS) ∧
    List.Chain' (fun p q => p.stop = q.start ∧ p.stop - p.start = ten_days)
      (get_periods_gen DEC_2025_START_TS DEC_2025_END_TS ten_days) ∧
    ((get_periods_gen DEC_2025_START_TS DEC_2025_END_TS ten_days).getLastD
      ⟨0, 0⟩).stop = DEC_2025_END_TS ∧
    (∀ p ∈ get_periods_gen DEC_2025_START_TS DEC_2025_END_TS ten_days,
      DEC_2025_START_TS ≤ p.start ∧ p.start < p.stop ∧ p.stop ≤ DEC_2025_END_TS) ∧
    List.Pairwise (fun p q => p.stop ≤ q.start)
      (get_periods_gen DEC_2025_START_TS DEC_2025_END_TS ten_days) ∧
    (∀ t, DEC_2025_START_TS ≤ t → t < DEC_2025_END_TS →
      ∃ p ∈ get_periods_gen DEC_2025_START_TS DEC_2025_END_TS ten_days,
        p.start ≤ t ∧ t < p.stop) ∧
    List.Pairwise (fun p q => p.label ≠ q.label)
      (get_periods_gen DEC_2025_START_TS DEC_2025_END_TS ten_days)) :=
  claim_C7_amended DEC_2025_START_TS DEC_2025_END_TS ten_days
    (by decide) (by decide)

/-- Helper: the per-period fallback fold of `load_existing_data`
appends, in order, the contents of each period file that exists, skipping
the missing ones. -/
theorem loadKind_foldl (fs : String → Option (List RawEvent))
    (files : List String) (acc : List RawEvent) :
    files.foldl
      (fun acc pf =>
        match fs pf with
        | some d => acc ++ d
        | none => acc) acc =
      acc ++ (files.map fun pf => (fs pf).getD []).flatten := by
  induction files generalizing acc with
  | nil => simp
  | cons f t ih =>
    simp only [List.foldl_cons, List.map_cons, List.flatten_cons]
    cases hf : fs f with
    | some d => simp [hf, ih, List.append_assoc]
    | none => simp [hf, ih]

/-- C10: for each event kind, `load_existing_data` returns the
cumulative file's contents as-is whenever that file exists — the
per-period files are ignored (the result is the same for every
filesystem serving that cumulative content) — and only when the
cumulative file is absent falls back to concatenating the per-period
files in period order, skipping any missing period file while still
loading the rest. -/
theorem claim_C10 (fs : String → Option (List RawEvent)) :
    (∀ v, fs splits_cumulative_file = some v → (load_existing_data fs).1 = v) ∧
    (∀ v, fs redemptions_cumulative_file = some v →
      (load_existing_data fs).2 = v) ∧
    (fs splits_cumulative_file = none →
      (load_existing_data fs).1 =
        (((get_periods.map fun p => splits_period_file p.name).map
          fun pf => (fs pf).getD []).flatten)) ∧
    (fs redemptions_cumulative_file = none →
      (load_existing_data fs).2 =
        (((get_periods.map fun p => redemptions_period_file p.name).map
          fun pf => (fs pf).getD []).flatten)) := by
  refine ⟨?_, ?_, ?_, ?_⟩
  · intro v h
    show loadKind fs splits_cumulative_file _ = v
    simp only [loadKind, h]
  · intro v h
    show loadKind fs redemptions_cumulative_file _ = v
    simp only [loadKind, h]
  · intro h
    show loadKind fs splits_cumulative_file _ = _
    simp only [loadKind, h]
    rw [loadKind_foldl]
    exact List.nil_append _
  · intro h
    show loadKind fs redemptions_cumulative_file _ = _
    simp only [loadKind, h]
    rw [loadKind_foldl]
    exact List.nil_append _

/-- Witness for C10: a filesystem holding only the splits cumulative file
returns it as-is for splits and falls back to the (all-missing) period
files for redemptions. -/
theorem claim_C10_witness :
    (load_existing_data
        (fun s => if s = splits_cumulative_file then some [⟨some "a"⟩] else none)).1 =
      [⟨some "a"⟩] ∧
    (load_existing_data
        (fun s => if s = splits_cumulative_file then some [⟨some "a"⟩] else none)).2 =
      (((get_periods.map fun p => redemptions_period_file p.name).map
        fun pf =>
          ((fun s => if s = splits_cumulative_file then some [⟨some "a"⟩] else none)
            pf).getD []).flatten) :=
  ⟨(claim_C10 _).1 [⟨some "a"⟩] (by simp),
   (claim_C10 _).2.2.2 (by decide)⟩

/-- Helper: one retried attempt of the `query_graphql` loop — for every
response function, a 502/503/504 response (or a network exception other
than on the last attempt) advances to the next attempt after recording a
sleep of `2 ^ attempt + jitter attempt`. -/
theorem queryAux_step (resp : Nat → UpstreamResult) (jitter : Nat → ℚ)
    (mr remaining attempt : Nat) (delays : List ℚ)
    (h : retryableAt resp mr attempt) :
    queryAux resp jitter mr (remaining + 1) attempt delays =
      queryAux resp jitter mr remaining (attempt + 1)
        (delays ++ [(2 : ℚ) ^ attempt + jitter attempt]) := by
  rcases h with ⟨s, b, hr, hs⟩ | ⟨m, hr, hi⟩
  · have hs' : s ≠ 200 := by
      intro he; subst he; simp [retryableStatus] at hs
    simp [queryAux, hr, hs, hs']
  · simp [queryAux, hr, hi]

/-- Helper: against an upstream that answers every attempt with a
retryable 5xx status, the attempt loop always ends in the max-retries
error, whatever the attempt budget and starting state. -/
theorem queryAux_allRetry (resp : Nat → UpstreamResult) (jitter : Nat → ℚ)
    (hall : ∀ i, ∃ status body, resp i = .http status body ∧
      retryableStatus status = true) :
    ∀ (mr remaining attempt : Nat) (delays : List ℚ),
      queryAux resp jitter mr remaining attempt delays =
        .error .maxRetriesExceeded := by
  intro mr remaining
  induction remaining with
  | zero => intro attempt delays; rfl
  | succ remaining ih =>
    intro attempt delays
    obtain ⟨s, b, hr, hs⟩ := hall attempt
    have hs' : s ≠ 200 := by
      intro he; subst he; simp [retryableStatus] at hs
    simp [queryAux, hr, hs, hs', ih]

/-- C9: for every sequence of upstream responses, `query_graphql` retries
an attempt answered with HTTP 502, 503 or 504 or a network-level
exception (the latter except on the last attempt, where it re-raises),
sleeping `2 ^ attempt + jitter attempt` before the retry with the attempt
counted from 0 and `jitter attempt` in `[0, 1)`; attempts are capped at
`max_retries` (an all-5xx upstream yields the max-retries error); and in
particular any three consecutive retryable-status responses followed by a
200 at the default `max_retries = 5` succeed with exactly three delays
recorded, each at least `2 ^ attempt`. -/
theorem claim_C9 (resp : Nat → UpstreamResult) (jitter : Nat → ℚ)
    (h0 : ∀ i, 0 ≤ jitter i) (h1 : ∀ i, jitter i < 1) :
    (∀ (mr remaining attempt : Nat) (delays : List ℚ),
        retryableAt resp mr attempt →
        queryAux resp jitter mr (remaining + 1) attempt delays =
          queryAux resp jitter mr remaining (attempt + 1)
            (delays ++ [(2 : ℚ) ^ attempt + jitter attempt])) ∧
    (∀ attempt : Nat, (2 : ℚ) ^ attempt ≤ 2 ^ attempt + jitter attempt ∧
        (2 : ℚ) ^ attempt + jitter attempt < 2 ^ attempt + 1) ∧
    (∀ mr : Nat,
        (∀ i, ∃ status body, resp i = .http status body ∧
          retryableStatus status = true) →
        query_graphql resp jitter mr = .error .maxRetriesExceeded) ∧
    (∀ (mr remaining attempt : Nat) (delays : List ℚ) (msg : String),
        resp attempt = .netError msg → attempt = mr - 1 →
        queryAux resp jitter mr (remaining + 1) attempt delays =
          .error (.networkFailure msg)) ∧
    (∀ (s1 s2 s3 : Nat) (b1 b2 b3 body : String),
        retryableStatus s1 = true → retryableStatus s2 = true →
        retryableStatus s3 = true →
        query_graphql
            (fun n => if n = 0 then .http s1 b1 else if n = 1 then .http s2 b2
              else if n = 2 then .http s3 b3 else .http 200 body)
            jitter default_max_retries =
          .ok (body, [2 ^ 0 + jitter 0, 2 ^ 1 + jitter 1, 2 ^ 2 + jitter 2]) ∧
        [(2 : ℚ) ^ 0 + jitter 0, 2 ^ 1 + jitter 1,
          2 ^ 2 + jitter 2].length = 3) := by
  refine ⟨queryAux_step resp jitter, ?_, ?_, ?_, ?_⟩
  · intro attempt
    exact ⟨le_add_of_nonneg_right (h0 attempt),
      add_lt_add_left (h1 attempt) _⟩
  · intro mr hall
    exact queryAux_allRetry resp jitter hall mr mr 0 []
  · intro mr remaining attempt delays msg hr hi
    subst hi
    simp [queryAux, hr]
  · intro s1 s2 s3 b1 b2 b3 body hs1 hs2 hs3
    refine ⟨?_, rfl⟩
    have e1 := queryAux_step
      (fun n => if n = 0 then .http s1 b1 else if n = 1 then .http s2 b2
        else if n = 2 then .http s3 b3 else .http 200 body)
      jitter default_max_retries 4 0 [] (Or.inl ⟨s1, b1, rfl, hs1⟩)
    have e2 := queryAux_step
      (fun n => if n = 0 then .http s1 b1 else if n = 1 then .http s2 b2
        else if n = 2 then .http s3 b3 else .http 200 body)
      jitter default_max_retries 3 1 [(2 : ℚ) ^ 0 + jitter 0]
      (Or.inl ⟨s2, b2, rfl, hs2⟩)
    have e3 := queryAux_step
      (fun n => if n = 0 then .http s1 b1 else if n = 1 then .http s2 b2
        else if n = 2 then .http s3 b3 else .http 200 body)
      jitter default_max_retries 2 2
      [(2 : ℚ) ^ 0 + jitter 0, (2 : ℚ) ^ 1 + jitter 1]
      (Or.inl ⟨s3, b3, rfl, hs3⟩)
    exact e1.trans (e2.trans (e3.trans (by simp [queryAux])))

/-- Witness for C9: the retry step exercised on a 502 response and on a
network exception, the max-retries cap on an all-503 upstream, the
re-raise of a network exception on the final attempt, and the
502/503/504-then-200 sequence succeeding with three delays, all at zero
jitter. -/
theorem claim_C9_witness :
    (queryAux (fun _ => .http 502 "busy") (fun _ => 0) 5 (3 + 1) 0 [] =
      queryAux (fun _ => .http 502 "busy") (fun _ => 0) 5 3 (0 + 1)
        ([] ++ [(2 : ℚ) ^ 0 + 0])) ∧
    (queryAux (fun _ => .netError "down") (fun _ => 0) 5 (3 + 1) 2 [] =
      queryAux (fun _ => .netError "down") (fun _ => 0) 5 3 (2 + 1)
        ([] ++ [(2 : ℚ) ^ 2 + 0])) ∧
    (query_graphql (fun _ => .http 503 "busy") (fun _ => 0) 5 =
      .error .maxRetriesExceeded) ∧
    (queryAux (fun _ => .netError "down") (fun _ => 0) 5 (0 + 1) 4 [] =
      .error (.networkFailure "down")) ∧
    (query_graphql
        (fun n => if n = 0 then .http 502 "e1" else if n = 1 then .http 503 "e2"
          else if n = 2 then .http 504 "e3" else .http 200 "ok")
        (fun _ => 0) default_max_retries =
      .ok ("ok", [2 ^ 0 + (0 : ℚ), 2 ^ 1 + (0 : ℚ), 2 ^ 2 + (0 : ℚ)])) :=
  ⟨(claim_C9 (fun _ => .http 502 "busy") (fun _ => 0)
      (fun _ => le_refl 0) (fun _ => zero_lt_one)).1 5 3 0 []
      (Or.inl ⟨502, "busy", rfl, by decide⟩),
   (claim_C9 (fun _ => .netError "down") (fun _ => 0)
      (fun _ => le_refl 0) (fun _ => zero_lt_one)).1 5 3 2 []
      (Or.inr ⟨"down", rfl, by decide⟩),
   (claim_C9 (fun _ => .http 503 "busy") (fun _ => 0)
      (fun _ => le_refl 0) (fun _ => zero_lt_one)).2.2.1 5
      (fun _ => ⟨503, "busy", rfl, by decide⟩),
   (claim_C9 (fun _ => .netError "down") (fun _ => 0)
      (fun _ => le_refl 0) (fun _ => zero_lt_one)).2.2.2.1 5 0 4 [] "down"
      rfl (by decide),
   ((claim_C9 (fun _ => .netError "unused") (fun _ => 0)
      (fun _ => le_refl 0) (fun _ => zero_lt_one)).2.2.2.2 502 503 504
      "e1" "e2" "e3" "ok" (by decide) (by decide) (by decide)).1⟩

end DeFiSpec
